import Mathlib

/-!
Shallow embedding of the upstream-selection and proxying core of the
yt-proxy repository.  The repository holds two variants of the same
program: `src/server.js` (dynamic instance discovery, redirect-following
fetch helper, probe requiring a non-empty JSON array, cache invalidation
in the proxy handler) and the unnamed source `src/unnamed/part_000`
(static instance list, fetch helper without redirect handling, probe
requiring only syntactically valid JSON, no cache invalidation in the
proxy handler).  The first is embedded in namespace `Server`, the second
in namespace `Part000`.

Network effects are modelled by an explicit environment: a function from
URL and timeout to the HTTP response the network would deliver, plus the
outcome of the JavaScript built-in `JSON.parse` on each body text.
`Date.now()` is an explicit integer parameter.  The recursion of
`fetchUrl` in `server.js` carries no depth counter in the source, so the
embedding indexes it by fuel; exhausting the fuel yields the distinguished
outcome `diverge`, standing for a computation that recurses beyond that
depth.
-/

/-- A JSON value, the result of a successful `JSON.parse`. -/
inductive Json where
  | null
  | bool (b : Bool)
  | num (n : Int)
  | str (s : String)
  | arr (elems : List Json)
  | obj (fields : List (String × Json))

/-- What the network delivers for one outbound GET: a response with a
status code, an optional Location header and a body, or a socket error,
or no answer within the timeout. -/
inductive HttpResp where
  | resp (status : Nat) (location : Option String) (body : String)
  | netError (msg : String)
  | timeout
deriving DecidableEq

/-- The network environment of a run: the response delivered for each
URL at a given timeout budget, and the outcome of the JavaScript
built-in `JSON.parse` on each body text (`none` models a parse throw). -/
structure NetEnv where
  resp : String → Nat → HttpResp
  parse : String → Option Json

/-- Outcome of the `server.js` `fetchUrl` promise: resolution with status
and text, rejection with an error message, or `diverge` when the
redirect recursion exceeds the fuel. -/
inductive FetchOutcome where
  | ok (status : Nat) (text : String)
  | err (msg : String)
  | diverge
deriving DecidableEq

/-- A network action performed by the selection logic, recorded so that
claims about which calls are issued can be stated. -/
inductive NetEvent where
  | listFetch
  | probe (inst : String)
deriving DecidableEq

/-- The module-level mutable selection state shared by both variants:
`activeInstance` (JS `null` is `none`) and `instanceCheckTime`. -/
structure SelectorState where
  activeInstance : Option String
  instanceCheckTime : Int
deriving DecidableEq

/-- JavaScript truthiness of a possibly-undefined value (`none` is
`undefined`). -/
def jsTruthy : Option Json → Bool
  | none => false
  | some .null => false
  | some (.bool b) => b
  | some (.num n) => n != 0
  | some (.str s) => s != ""
  | some (.arr _) => true
  | some (.obj _) => true

/-- JavaScript `String.prototype.startsWith`, modelled on the character
list of the string. -/
def jsStartsWith (s pre : String) : Bool :=
  pre.data.isPrefixOf s.data

/-- Test for a trailing character list, used to model the regular
expression replace of a trailing slash. -/
def jsEndsWith (s suf : String) : Bool :=
  suf.data.isSuffixOf s.data

/-- The JavaScript expression `s.replace(/\/$/, "")`: remove one
trailing slash when present. -/
def stripTrailingSlash (s : String) : String :=
  if jsEndsWith s "/" then String.mk s.data.dropLast else s

/-- JavaScript property access `v.k` on a parsed JSON value: throws on
`null`, looks the key up on an object, and is `undefined` on the other
values. -/
def getProp (v : Json) (k : String) : Except String (Option Json) :=
  match v with
  | .null => .error "Cannot read properties of null"
  | .obj fields => .ok ((fields.find? (fun f => f.1 == k)).map (fun f => f.2))
  | _ => .ok none

/-- The array destructuring `[, info]` applied to one element of the
parsed directory document: second element of an array (undefined when
absent), second character of a string (strings are iterable), and a
TypeError on every other JSON value. -/
def entryInfo (e : Json) : Except String (Option Json) :=
  match e with
  | .arr xs => .ok xs[1]?
  | .str s => .ok (((s.data.drop 1).head?).map (fun c => Json.str (String.mk [c])))
  | _ => .error "is not iterable"

/-- Effectful filter over a list, calling the predicate left to right
and aborting on the first throw, as `Array.prototype.filter` does when
its callback throws. -/
def filterME (p : Json → Except String Bool) : List Json → Except String (List Json)
  | [] => .ok []
  | a :: as =>
    match p a with
    | .error m => .error m
    | .ok b =>
      match filterME p as with
      | .error m => .error m
      | .ok rest => .ok (if b then a :: rest else rest)

/-- Effectful map over a list, calling the function left to right and
aborting on the first throw, as `Array.prototype.map` does when its
callback throws. -/
def mapME (f : Json → Except String String) : List Json → Except String (List String)
  | [] => .ok []
  | a :: as =>
    match f a with
    | .error m => .error m
    | .ok x =>
      match mapME f as with
      | .error m => .error m
      | .ok rest => .ok (x :: rest)

namespace Server

/-- `const INSTANCE_TTL = 3 * 60 * 1000` of `server.js`. -/
def INSTANCE_TTL : Int := 3 * 60 * 1000

/-- The hardcoded fallback list of `server.js`. -/
def FALLBACK_INSTANCES : List String :=
  ["https://yewtu.be", "https://invidious.nerdvpn.de", "https://inv.nadeko.net"]

/-- The discovery URL queried by `fetchInstanceList`. -/
def discoveryUrl : String := "https://api.invidious.io/instances.json?sort_by=health"

/-- The message of the error thrown when every candidate fails. -/
def allUnavailableMsg : String := "All Invidious instances are currently unavailable."

/-- `fetchUrl` of `server.js`: on a 300-399 status with a truthy
Location header it re-invokes itself on that location with the same
timeout argument; otherwise it resolves on a 2xx status and rejects on
everything else.  The source recursion carries no depth counter, so the
embedding is indexed by fuel; `diverge` marks the recursion exceeding
the fuel. -/
def fetchUrl (env : NetEnv) (timeoutMs : Nat) : Nat → String → FetchOutcome
  | 0, _ => .diverge
  | fuel + 1, url =>
    match env.resp url timeoutMs with
    | .resp st loc body =>
      match loc with
      | some l =>
        if 300 ≤ st ∧ st < 400 ∧ l ≠ "" then fetchUrl env timeoutMs fuel l
        else if 200 ≤ st ∧ st < 300 then .ok st body
        else .err ("HTTP " ++ toString st)
      | none =>
        if 200 ≤ st ∧ st < 300 then .ok st body
        else .err ("HTTP " ++ toString st)
    | .netError m => .err m
    | .timeout => .err "Timeout"

/-- The filter callback of `fetchInstanceList`:
`([, info]) => info.uri && info.uri.startsWith("https") && info.api === true`,
with JavaScript throw semantics for the destructuring and the property
accesses. -/
def filterPred (e : Json) : Except String Bool :=
  match entryInfo e with
  | .error m => .error m
  | .ok none => .error "Cannot read properties of undefined"
  | .ok (some info) =>
    match getProp info "uri" with
    | .error m => .error m
    | .ok uri? =>
      if jsTruthy uri? then
        match uri? with
        | some (.str s) =>
          if jsStartsWith s "https" then
            match getProp info "api" with
            | .error m => .error m
            | .ok api? =>
              .ok (match api? with | some (.bool true) => true | _ => false)
          else .ok false
        | _ => .error "startsWith is not a function"
      else .ok false

/-- The map callback of `fetchInstanceList`:
`([, info]) => info.uri.replace(/\/$/, "")`. -/
def mapEntry (e : Json) : Except String String :=
  match entryInfo e with
  | .error m => .error m
  | .ok none => .error "Cannot read properties of undefined"
  | .ok (some info) =>
    match getProp info "uri" with
    | .error m => .error m
    | .ok (some (.str s)) => .ok (stripTrailingSlash s)
    | .ok (some _) => .error "replace is not a function"
    | .ok none => .error "Cannot read properties of undefined"

/-- The body of the `try` block of `fetchInstanceList` after
`JSON.parse`: `list.filter(...).map(...).slice(0, 10)`, throwing when
the parsed document is not an array or a callback throws. -/
def instancesFromJson (j : Json) : Except String (List String) :=
  match j with
  | .arr entries =>
    match filterME filterPred entries with
    | .error m => .error m
    | .ok filtered =>
      match mapME mapEntry filtered with
      | .error m => .error m
      | .ok mapped => .ok (mapped.take 10)
  | _ => .error "list.filter is not a function"

/-- `fetchInstanceList` of `server.js`: fetch the directory document
with an 8000 ms timeout, parse and filter it, and fall back to
`FALLBACK_INSTANCES` on any caught error or on an empty filtered list.
`none` propagates a diverging redirect recursion of the discovery
fetch. -/
def fetchInstanceList (env : NetEnv) (fuel : Nat) : Option (List String) :=
  match fetchUrl env 8000 fuel discoveryUrl with
  | .diverge => none
  | .err _ => some FALLBACK_INSTANCES
  | .ok _ text =>
    match env.parse text with
    | none => some FALLBACK_INSTANCES
    | some j =>
      match instancesFromJson j with
      | .error _ => some FALLBACK_INSTANCES
      | .ok instances =>
        some (if instances.length > 0 then instances else FALLBACK_INSTANCES)

/-- One probe of the selection loop of `getActiveInstance`:
`fetchUrl(inst + "/api/v1/trending?page=1", 7000)` followed by
`JSON.parse(result.text)`; a fetch rejection or a parse throw is an
error caught by the loop. -/
def probeOutcome (env : NetEnv) (fuel : Nat) (inst : String) :
    Option (Except String Json) :=
  match fetchUrl env 7000 fuel (inst ++ "/api/v1/trending?page=1") with
  | .diverge => none
  | .err m => some (.error m)
  | .ok _ text =>
    match env.parse text with
    | some j => some (.ok j)
    | none => some (.error "Unexpected token")

/-- The adoption test of `getActiveInstance`:
`Array.isArray(json) && json.length > 0`. -/
def probeSucceeds (r : Except String Json) : Bool :=
  match r with
  | .ok (.arr elems) => decide (elems.length > 0)
  | _ => false

/-- The `for (const inst of instances)` loop of `getActiveInstance`:
probe each candidate in order, adopt the first whose probe outcome
passes `probeSucceeds` (storing it with the `now` captured at the start
of the call), and throw the all-unavailable error when the list is
exhausted.  The returned list records the probes issued, in order. -/
def selectLoop (env : NetEnv) (fuel : Nat) (now : Int) :
    List String → SelectorState →
    Option (Except String String × SelectorState × List NetEvent)
  | [], s => some (.error allUnavailableMsg, s, [])
  | inst :: rest, s =>
    match probeOutcome env fuel inst with
    | none => none
    | some r =>
      if probeSucceeds r then
        some (.ok inst, ⟨some inst, now⟩, [.probe inst])
      else
        match selectLoop env fuel now rest s with
        | none => none
        | some (res, s', evs) => some (res, s', .probe inst :: evs)

/-- The cache-miss path of `getActiveInstance`: fetch the candidate list
and run the selection loop, recording the list fetch ahead of the
probes. -/
def runSelection (env : NetEnv) (fuel : Nat) (now : Int) (s : SelectorState) :
    Option (Except String String × SelectorState × List NetEvent) :=
  match fetchInstanceList env fuel with
  | none => none
  | some insts =>
    match selectLoop env fuel now insts s with
    | none => none
    | some (res, s', evs) => some (res, s', .listFetch :: evs)

/-- `getActiveInstance` of `server.js`: return the cached instance when
`activeInstance && now - instanceCheckTime < INSTANCE_TTL` (truthiness
of the cached string included), and otherwise fetch the candidate list
and probe it. -/
def getActiveInstance (env : NetEnv) (fuel : Nat) (now : Int) (s : SelectorState) :
    Option (Except String String × SelectorState × List NetEvent) :=
  match s.activeInstance with
  | some inst =>
    if inst ≠ "" ∧ now - s.instanceCheckTime < INSTANCE_TTL then
      some (.ok inst, s, [])
    else
      runSelection env fuel now s
  | none => runSelection env fuel now s

/-- The HTTP answer of the `/api/*` handler: a 200 with the upstream
body, the JSON content type and the `X-Proxied-From` header, or a 502
with the error message. -/
inductive ApiResult where
  | ok (contentType : String) (proxiedFrom : String) (body : String)
  | badGateway (errMsg : String)
deriving DecidableEq

/-- The `app.get("/api/*")` handler of `server.js`: obtain the active
instance, fetch `instance + req.originalUrl` with a 12000 ms timeout and
send the body; the catch block sets `activeInstance = null` (leaving
`instanceCheckTime` untouched) and answers 502 with the error
message. -/
def apiHandler (env : NetEnv) (fuel : Nat) (now : Int) (s : SelectorState)
    (originalUrl : String) : Option (ApiResult × SelectorState) :=
  match getActiveInstance env fuel now s with
  | none => none
  | some (.error e, s', _) => some (.badGateway e, ⟨none, s'.instanceCheckTime⟩)
  | some (.ok inst, s', _) =>
    match fetchUrl env 12000 fuel (inst ++ originalUrl) with
    | .diverge => none
    | .err m => some (.badGateway m, ⟨none, s'.instanceCheckTime⟩)
    | .ok _ text => some (.ok "application/json" inst text, s')

end Server

namespace Part000

/-- The static ordered instance list of `part_000`. -/
def INSTANCES : List String :=
  ["https://yewtu.be", "https://invidious.nerdvpn.de",
   "https://invidious.projectsegfau.lt", "https://inv.bp.projectsegfau.lt",
   "https://invidious.fdn.fr"]

/-- `const INSTANCE_TTL = 5 * 60 * 1000` of `part_000`. -/
def INSTANCE_TTL : Int := 5 * 60 * 1000

/-- The message of the error thrown when every candidate fails. -/
def allUnavailableMsg : String := "All Invidious instances are currently unavailable."

/-- `fetchUrl` of `part_000`: no redirect handling at all; resolve on a
2xx status, reject on every other status, socket error or timeout. -/
def fetchUrl (env : NetEnv) (url : String) (timeoutMs : Nat) :
    Except String (Nat × String) :=
  match env.resp url timeoutMs with
  | .resp st _ body =>
    if 200 ≤ st ∧ st < 300 then .ok (st, body) else .error ("HTTP " ++ toString st)
  | .netError m => .error m
  | .timeout => .error "Timeout"

/-- The `for (const inst of INSTANCES)` loop of `getActiveInstance` of
`part_000`: probe with a 5000 ms timeout and adopt the first candidate
whose body merely passes `JSON.parse` — no shape check at all. -/
def selectLoop (env : NetEnv) (now : Int) (s : SelectorState) :
    List String → Except String String × SelectorState × List NetEvent
  | [] => (.error allUnavailableMsg, s, [])
  | inst :: rest =>
    match fetchUrl env (inst ++ "/api/v1/trending?page=1") 5000 with
    | .ok result =>
      match env.parse result.2 with
      | some _ => (.ok inst, ⟨some inst, now⟩, [.probe inst])
      | none =>
        match selectLoop env now s rest with
        | (res, s', evs) => (res, s', .probe inst :: evs)
    | .error _ =>
      match selectLoop env now s rest with
      | (res, s', evs) => (res, s', .probe inst :: evs)

/-- `getActiveInstance` of `part_000`: cached-instance fast path under
the 5 minute TTL, otherwise iterate the static list. -/
def getActiveInstance (env : NetEnv) (now : Int) (s : SelectorState) :
    Except String String × SelectorState × List NetEvent :=
  match s.activeInstance with
  | some inst =>
    if inst ≠ "" ∧ now - s.instanceCheckTime < INSTANCE_TTL then
      (.ok inst, s, [])
    else
      selectLoop env now s INSTANCES
  | none => selectLoop env now s INSTANCES

/-- The HTTP answer of the `proxy` middleware of `part_000`: a 200 with
the JSON content type and the upstream body (no diagnostic header), or a
502 with the error message. -/
inductive ProxyResult where
  | ok (contentType : String) (body : String)
  | badGateway (errMsg : String)
deriving DecidableEq

/-- The `proxy` middleware of `part_000`: obtain the active instance and
fetch `instance + req.originalUrl` with the default 6000 ms timeout.
Its catch block only logs and answers 502 — it never resets
`activeInstance`. -/
def proxy (env : NetEnv) (now : Int) (s : SelectorState) (originalUrl : String) :
    ProxyResult × SelectorState :=
  match getActiveInstance env now s with
  | (.error e, s', _) => (.badGateway e, s')
  | (.ok inst, s', _) =>
    match fetchUrl env (inst ++ originalUrl) 6000 with
    | .ok result => (.ok "application/json" result.2, s')
    | .error m => (.badGateway m, s')

end Part000

/-- A network in which the two URLs of a redirect cycle answer each
other with 302 responses; every other URL is unreachable and every body
is unparseable. -/
def cycEnv : NetEnv :=
  ⟨fun url _ =>
    if url = "https://a.example/r" then
      .resp 302 (some "https://b.example/r") ""
    else if url = "https://b.example/r" then
      .resp 302 (some "https://a.example/r") ""
    else .netError "ENOTFOUND",
   fun _ => none⟩

/-- A network in which every outbound call is refused and nothing
parses. -/
def allFailEnv : NetEnv :=
  ⟨fun _ _ => .netError "ECONNREFUSED", fun _ => none⟩

/-- A network in which the discovery fetch fails, the health probe of
the first fallback instance answers 200 with the body of a one-element
array, and every other call is refused. -/
def okFirstEnv : NetEnv :=
  ⟨fun url _ =>
    if url = "https://yewtu.be/api/v1/trending?page=1" then
      .resp 200 none "[1]"
    else .netError "ECONNREFUSED",
   fun t => if t = "[1]" then some (.arr [.num 1]) else none⟩

/-- A network in which the discovery fetch and the probe of the first
fallback instance fail, while the probe of the second fallback instance
answers 200 with a one-element array. -/
def failoverEnv : NetEnv :=
  ⟨fun url _ =>
    if url = "https://invidious.nerdvpn.de/api/v1/trending?page=1" then
      .resp 200 none "[1]"
    else .netError "ECONNREFUSED",
   fun t => if t = "[1]" then some (.arr [.num 1]) else none⟩

/-- A network in which one candidate answers its health probe with 200
and the body of an empty JSON array. -/
def emptyArrEnv : NetEnv :=
  ⟨fun url _ =>
    if url = "https://c.example/api/v1/trending?page=1" then
      .resp 200 none "[]"
    else .netError "ECONNREFUSED",
   fun t => if t = "[]" then some (.arr []) else none⟩

/-- The body text of an empty JSON object. -/
def emptyObjBody : String := "\x7b\x7d"

/-- A network in which the first static instance answers its health
probe with 200 and the body of an empty JSON object, which parses to a
valid but empty JSON value. -/
def emptyObjEnv : NetEnv :=
  ⟨fun url _ =>
    if url = "https://yewtu.be/api/v1/trending?page=1" then
      .resp 200 none emptyObjBody
    else .netError "ECONNREFUSED",
   fun t => if t = emptyObjBody then some (.obj []) else none⟩

/-! ### Helper lemmas -/

theorem isPrefixOf_length {l₁ l₂ : List Char} (h : l₁.isPrefixOf l₂ = true) :
    l₁.length ≤ l₂.length := by
  induction l₁ generalizing l₂ with
  | nil => simp
  | cons a as ih =>
    cases l₂ with
    | nil => simp [List.isPrefixOf] at h
    | cons b bs =>
      simp only [List.isPrefixOf, Bool.and_eq_true] at h
      have := ih h.2
      simp only [List.length_cons]
      omega

theorem stripTrailingSlash_ne_empty {s : String}
    (h : jsStartsWith s "https" = true) : stripTrailingSlash s ≠ "" := by
  have h5 : (5 : Nat) ≤ s.data.length := by
    have := isPrefixOf_length h
    simpa using this
  unfold stripTrailingSlash
  split
  · intro hc
    have hdata : s.data.dropLast = [] := congrArg String.data hc
    have hlen : s.data.dropLast.length = 0 := by rw [hdata]; rfl
    rw [List.length_dropLast] at hlen
    omega
  · intro hc
    have hdata : s.data = [] := congrArg String.data hc
    have hlen : s.data.length = 0 := by rw [hdata]; rfl
    omega

theorem filterME_mem {p : Json → Except String Bool} {l out : List Json}
    (h : filterME p l = .ok out) : ∀ e ∈ out, p e = .ok true := by
  induction l generalizing out with
  | nil =>
    simp only [filterME] at h
    injection h with h
    subst h
    intro e he
    cases he
  | cons a as ih =>
    simp only [filterME] at h
    split at h
    · exact Except.noConfusion h
    next b hb =>
      split at h
      · exact Except.noConfusion h
      next rest hrest =>
        injection h with h
        subst h
        intro e he
        cases b with
        | true =>
          simp at he
          rcases he with he | he
          · subst he; exact hb
          · exact ih hrest e he
        | false =>
          simp at he
          exact ih hrest e he

theorem mapME_mem {f : Json → Except String String} {l : List Json}
    {out : List String} (h : mapME f l = .ok out) :
    ∀ x ∈ out, ∃ e ∈ l, f e = .ok x := by
  induction l generalizing out with
  | nil =>
    simp only [mapME] at h
    injection h with h
    subst h
    intro x hx
    cases hx
  | cons a as ih =>
    simp only [mapME] at h
    split at h
    · exact Except.noConfusion h
    next x0 hx0 =>
      split at h
      · exact Except.noConfusion h
      next rest hrest =>
        injection h with h
        subst h
        intro x hx
        rcases List.mem_cons.mp hx with hx | hx
        · subst hx; exact ⟨a, List.mem_cons_self a as, hx0⟩
        · obtain ⟨e, he, hfe⟩ := ih hrest x hx
          exact ⟨e, List.mem_cons_of_mem _ he, hfe⟩

theorem filterPred_true_uri {e : Json} (h : Server.filterPred e = .ok true) :
    ∃ info s, entryInfo e = .ok (some info) ∧
      getProp info "uri" = .ok (some (.str s)) ∧ jsStartsWith s "https" = true := by
  unfold Server.filterPred at h
  split at h
  · exact Except.noConfusion h
  · exact Except.noConfusion h
  next info hinfo =>
    split at h
    · exact Except.noConfusion h
    next uri? huri =>
      split at h
      next htr =>
        split at h
        next s =>
          split at h
          next hsw =>
            split at h
            · exact Except.noConfusion h
            · exact ⟨info, s, hinfo, huri, hsw⟩
          next hsw =>
            injection h with h
            exact absurd h (by simp)
        next =>
          exact Except.noConfusion h
      next htr =>
        injection h with h
        exact absurd h (by simp)

theorem mapEntry_of_uri {e info : Json} {s : String} {x : String}
    (h1 : entryInfo e = .ok (some info))
    (h2 : getProp info "uri" = .ok (some (.str s)))
    (h3 : Server.mapEntry e = .ok x) : x = stripTrailingSlash s := by
  unfold Server.mapEntry at h3
  simp only [h1, h2] at h3
  injection h3 with h3
  exact h3.symm

theorem instancesFromJson_mem_ne_empty {j : Json} {insts : List String}
    (h : Server.instancesFromJson j = .ok insts) : ∀ x ∈ insts, x ≠ "" := by
  unfold Server.instancesFromJson at h
  split at h
  next entries =>
    split at h
    · exact Except.noConfusion h
    next filtered hfil =>
      split at h
      · exact Except.noConfusion h
      next mapped hmap =>
        injection h with h
        subst h
        intro x hx
        have hx' : x ∈ mapped := List.take_subset _ _ hx
        obtain ⟨e, he, hfe⟩ := mapME_mem hmap x hx'
        have hpe := filterME_mem hfil e he
        obtain ⟨info, s, hinfo, huri, hsw⟩ := filterPred_true_uri hpe
        have hxs := mapEntry_of_uri hinfo huri hfe
        rw [hxs]
        exact stripTrailingSlash_ne_empty hsw
  next =>
    exact Except.noConfusion h

theorem fetchInstanceList_mem_ne_empty {env : NetEnv} {fuel : Nat}
    {insts : List String} (h : Server.fetchInstanceList env fuel = some insts) :
    ∀ x ∈ insts, x ≠ "" := by
  have hfb : ∀ x ∈ Server.FALLBACK_INSTANCES, x ≠ "" := by decide
  unfold Server.fetchInstanceList at h
  split at h
  · exact Option.noConfusion h
  · injection h with h; subst h; exact hfb
  next st text =>
    split at h
    · injection h with h; subst h; exact hfb
    next j hj =>
      split at h
      · injection h with h; subst h; exact hfb
      next instances hinst =>
        injection h with h
        subst h
        intro x hx
        by_cases hlen : instances.length > 0
        · rw [if_pos hlen] at hx
          exact instancesFromJson_mem_ne_empty hinst x hx
        · rw [if_neg hlen] at hx
          exact hfb x hx

theorem fetchInstanceList_ne_nil {env : NetEnv} {fuel : Nat}
    {insts : List String} (h : Server.fetchInstanceList env fuel = some insts) :
    insts ≠ [] := by
  have hfb : Server.FALLBACK_INSTANCES ≠ [] := by decide
  unfold Server.fetchInstanceList at h
  split at h
  · exact Option.noConfusion h
  · injection h with h; subst h; exact hfb
  next st text =>
    split at h
    · injection h with h; subst h; exact hfb
    next j hj =>
      split at h
      · injection h with h; subst h; exact hfb
      next instances hinst =>
        injection h with h
        subst h
        by_cases hlen : instances.length > 0
        · rw [if_pos hlen]
          exact List.ne_nil_of_length_pos hlen
        · rw [if_neg hlen]
          exact hfb

theorem selectLoop_sound {env : NetEnv} {fuel : Nat} {now : Int}
    {insts : List String} {s : SelectorState}
    {out : Except String String × SelectorState × List NetEvent}
    (h : Server.selectLoop env fuel now insts s = some out) :
    (out.1 = .error Server.allUnavailableMsg ∧ out.2.1 = s) ∨
    (∃ inst r, inst ∈ insts ∧ Server.probeOutcome env fuel inst = some r ∧
      Server.probeSucceeds r = true ∧ out.1 = .ok inst ∧
      out.2.1 = ⟨some inst, now⟩) := by
  induction insts generalizing out with
  | nil =>
    simp only [Server.selectLoop] at h
    injection h with h
    subst h
    left
    exact ⟨rfl, rfl⟩
  | cons inst rest ih =>
    simp only [Server.selectLoop] at h
    split at h
    · exact Option.noConfusion h
    next r hr =>
      split at h
      next hs =>
        injection h with h
        subst h
        right
        exact ⟨inst, r, List.mem_cons_self inst rest, hr, hs, rfl, rfl⟩
      next hs =>
        split at h
        · exact Option.noConfusion h
        next res s' evs hrec =>
          injection h with h
          subst h
          rcases ih hrec with ⟨h1, h2⟩ | ⟨i, r', hmem, hpo, hps, h1, h2⟩
          · left
            exact ⟨h1, h2⟩
          · right
            exact ⟨i, r', List.mem_cons_of_mem _ hmem, hpo, hps, h1, h2⟩

theorem selectLoop_cons_events {env : NetEnv} {fuel : Nat} {now : Int}
    {inst : String} {rest : List String} {s : SelectorState}
    {out : Except String String × SelectorState × List NetEvent}
    (h : Server.selectLoop env fuel now (inst :: rest) s = some out) :
    ∃ tail, out.2.2 = NetEvent.probe inst :: tail := by
  simp only [Server.selectLoop] at h
  split at h
  · exact Option.noConfusion h
  next r hr =>
    split at h
    next hs =>
      injection h with h
      subst h
      exact ⟨[], rfl⟩
    next hs =>
      split at h
      · exact Option.noConfusion h
      next res s' evs hrec =>
        injection h with h
        subst h
        exact ⟨evs, rfl⟩

theorem selectLoop_all_fail {env : NetEnv} {fuel : Nat} {now : Int}
    {insts : List String} {s : SelectorState}
    (hall : ∀ inst ∈ insts, ∃ r, Server.probeOutcome env fuel inst = some r ∧
      Server.probeSucceeds r = false) :
    Server.selectLoop env fuel now insts s =
      some (.error Server.allUnavailableMsg, s, insts.map NetEvent.probe) := by
  induction insts with
  | nil => rfl
  | cons inst rest ih =>
    obtain ⟨r, hr, hrf⟩ := hall inst (List.mem_cons_self inst rest)
    have hrest := ih (fun i hi => hall i (List.mem_cons_of_mem _ hi))
    simp only [Server.selectLoop, hr, hrf, hrest, List.map_cons]
    rfl

theorem runSelection_shape {env : NetEnv} {fuel : Nat} {now : Int}
    {s : SelectorState}
    {out : Except String String × SelectorState × List NetEvent}
    (h : Server.runSelection env fuel now s = some out) :
    ∃ insts evs, Server.fetchInstanceList env fuel = some insts ∧
      Server.selectLoop env fuel now insts s = some (out.1, out.2.1, evs) ∧
      out.2.2 = NetEvent.listFetch :: evs := by
  unfold Server.runSelection at h
  split at h
  · exact Option.noConfusion h
  next insts hinsts =>
    split at h
    · exact Option.noConfusion h
    next res s' evs hsel =>
      injection h with h
      subst h
      exact ⟨insts, evs, hinsts, hsel, rfl⟩

theorem getActive_cases {env : NetEnv} {fuel : Nat} {now : Int}
    {s : SelectorState}
    {out : Except String String × SelectorState × List NetEvent}
    (h : Server.getActiveInstance env fuel now s = some out) :
    (∃ inst, s.activeInstance = some inst ∧ inst ≠ "" ∧
      now - s.instanceCheckTime < Server.INSTANCE_TTL ∧ out = (.ok inst, s, [])) ∨
    (∃ insts evs, Server.fetchInstanceList env fuel = some insts ∧
      Server.selectLoop env fuel now insts s = some (out.1, out.2.1, evs) ∧
      out.2.2 = NetEvent.listFetch :: evs) := by
  unfold Server.getActiveInstance at h
  split at h
  next inst hA =>
    split at h
    next hcond =>
      injection h with h
      subst h
      left
      exact ⟨inst, hA, hcond.1, hcond.2, rfl⟩
    next hcond =>
      right
      exact runSelection_shape h
  next hA =>
    right
    exact runSelection_shape h

theorem getActive_ok_active {env : NetEnv} {fuel : Nat} {now : Int}
    {s s' : SelectorState} {c : String} {evs : List NetEvent}
    (h : Server.getActiveInstance env fuel now s = some (.ok c, s', evs)) :
    s'.activeInstance = some c ∧ c ≠ "" := by
  rcases getActive_cases h with ⟨inst, hA, hne, httl, hout⟩ | ⟨insts, evs', hl, hsel, hevs⟩
  · injection hout with hout1 hout2
    injection hout1 with hc
    injection hout2 with hout2a hout2b
    subst hc
    subst hout2a
    exact ⟨hA, hne⟩
  · rcases selectLoop_sound hsel with ⟨h1, h2⟩ | ⟨i, r, hmem, hpo, hps, h1, h2⟩
    · exact Except.noConfusion h1
    · have hc : c = i := by injection h1
      subst hc
      dsimp only at h2
      constructor
      · rw [h2]
      · exact fetchInstanceList_mem_ne_empty hl _ hmem

/-! ### Claim theorems -/

/-- C1 (amended): in the `server.js` forwarder, when the active upstream
is obtained and the proxied fetch then fails, the handler resets
`activeInstance` to null before answering 502, so any later
`getActiveInstance` call on that state runs the probing loop; the
`part_000` variant of the forwarder does not invalidate (see the
counterexample). -/
theorem server_forward_failure_invalidates
    (env : NetEnv) (fuel : Nat) (now : Int) (s s₁ : SelectorState)
    (url inst m : String) (evs : List NetEvent)
    (h1 : Server.getActiveInstance env fuel now s = some (.ok inst, s₁, evs))
    (h2 : Server.fetchUrl env 12000 fuel (inst ++ url) = .err m) :
    Server.apiHandler env fuel now s url =
      some (.badGateway m, ⟨none, s₁.instanceCheckTime⟩) ∧
    (∀ env' fuel' now' out',
      Server.getActiveInstance env' fuel' now' ⟨none, s₁.instanceCheckTime⟩ = some out' →
      ∃ evs', out'.2.2 = NetEvent.listFetch :: evs') := by
  constructor
  · simp only [Server.apiHandler, h1, h2]
  · intro env' fuel' now' out' hcall
    rcases getActive_cases hcall with ⟨i, hAi, _, _, _⟩ | ⟨insts, evs', hl, hsel, hevs⟩
    · exact Option.noConfusion hAi
    · exact ⟨evs', hevs⟩

/-- C1 counterexample: the `proxy` middleware of `part_000` surfaces the
502 error of a failed proxied fetch while leaving the cached upstream in
place — the claim that every `/api/*` forwarder invalidates the cache
before surfacing the error is false for this variant. -/
theorem part000_proxy_keeps_cache_on_failure :
    Part000.proxy allFailEnv 1000 ⟨some "https://yewtu.be", 0⟩ "/api/v1/videos/abc" =
      (.badGateway "ECONNREFUSED", ⟨some "https://yewtu.be", 0⟩) ∧
    (⟨some "https://yewtu.be", 0⟩ : SelectorState).activeInstance =
      some "https://yewtu.be" :=
  ⟨rfl, rfl⟩

/-- C1 witness: concrete run of the `server.js` handler in which the
cached upstream is cleared on a failed proxied fetch. -/
theorem server_forward_failure_invalidates_witness :
    Server.apiHandler okFirstEnv 1 0 ⟨none, 0⟩ "/api/v1/videos/abc" =
      some (.badGateway "ECONNREFUSED", ⟨none, 0⟩) :=
  (server_forward_failure_invalidates okFirstEnv 1 0 ⟨none, 0⟩
    ⟨some "https://yewtu.be", 0⟩ "/api/v1/videos/abc" "https://yewtu.be"
    "ECONNREFUSED" [.listFetch, .probe "https://yewtu.be"] rfl rfl).1

/-- C2: the `fetchUrl` helper of `server.js` follows redirects by
re-invoking itself with no depth counter; on a two-URL redirect cycle it
exhausts any amount of fuel without ever settling — it neither fails
past a fixed depth nor terminates. -/
theorem server_redirect_cycle_unbounded :
    ∀ fuel : Nat,
      Server.fetchUrl cycEnv 8000 fuel "https://a.example/r" = .diverge ∧
      Server.fetchUrl cycEnv 8000 fuel "https://b.example/r" = .diverge := by
  intro fuel
  induction fuel with
  | zero => exact ⟨rfl, rfl⟩
  | succ n ih =>
    have ha : Server.fetchUrl cycEnv 8000 (n + 1) "https://a.example/r" =
        Server.fetchUrl cycEnv 8000 n "https://b.example/r" := rfl
    have hb : Server.fetchUrl cycEnv 8000 (n + 1) "https://b.example/r" =
        Server.fetchUrl cycEnv 8000 n "https://a.example/r" := rfl
    exact ⟨ha.trans ih.2, hb.trans ih.1⟩

/-- C3 (amended): in `server.js` a probe succeeds exactly when the final
HTTP status is in [200,300), the body parses as JSON and the parsed
value is a non-empty array, and the selection loop adopts only
candidates whose probe succeeds; the `part_000` variant adopts any
candidate whose body merely parses (see the counterexample). -/
theorem server_probe_health_contract
    (env : NetEnv) (fuel : Nat) (inst : String) (st : Nat) (body : String)
    (r : Except String Json)
    (hresp : env.resp (inst ++ "/api/v1/trending?page=1") 7000 = .resp st none body)
    (hout : Server.probeOutcome env (fuel + 1) inst = some r) :
    (Server.probeSucceeds r = true ↔
      (200 ≤ st ∧ st < 300 ∧
        ∃ elems, env.parse body = some (Json.arr elems) ∧ elems ≠ [])) ∧
    (∀ now s insts out c,
      Server.selectLoop env (fuel + 1) now insts s = some out → out.1 = .ok c →
      ∃ rc, Server.probeOutcome env (fuel + 1) c = some rc ∧
        Server.probeSucceeds rc = true) := by
  constructor
  · unfold Server.probeOutcome at hout
    simp only [Server.fetchUrl, hresp] at hout
    by_cases h2xx : 200 ≤ st ∧ st < 300
    · rw [if_pos h2xx] at hout
      cases hp : env.parse body with
      | some j =>
        simp only [hp] at hout
        injection hout with hout
        subst hout
        constructor
        · intro hps
          refine ⟨h2xx.1, h2xx.2, ?_⟩
          cases j with
          | arr elems =>
            refine ⟨elems, rfl, ?_⟩
            have : elems.length > 0 := of_decide_eq_true hps
            exact List.ne_nil_of_length_pos this
          | null => exact absurd hps (by simp [Server.probeSucceeds])
          | bool b => exact absurd hps (by simp [Server.probeSucceeds])
          | num n => exact absurd hps (by simp [Server.probeSucceeds])
          | str s2 => exact absurd hps (by simp [Server.probeSucceeds])
          | obj fields => exact absurd hps (by simp [Server.probeSucceeds])
        · rintro ⟨_, _, elems, hpe, hne⟩
          injection hpe with hpe
          subst hpe
          have : elems.length > 0 := List.length_pos.mpr hne
          exact decide_eq_true this
      | none =>
        simp only [hp] at hout
        injection hout with hout
        subst hout
        constructor
        · intro hps
          exact absurd hps (by simp [Server.probeSucceeds])
        · rintro ⟨_, _, elems, hpe, _⟩
          exact Option.noConfusion hpe
    · rw [if_neg h2xx] at hout
      injection hout with hout
      subst hout
      constructor
      · intro hps
        exact absurd hps (by simp [Server.probeSucceeds])
      · rintro ⟨ha, hb, _⟩
        exact absurd ⟨ha, hb⟩ h2xx
  · intro now s insts out c hsel hok
    rcases selectLoop_sound hsel with ⟨h1', _⟩ | ⟨i, rc, hmem, hpo, hps, h1', _⟩
    · rw [hok] at h1'
      exact Except.noConfusion h1'
    · rw [hok] at h1'
      have hc : c = i := by injection h1'
      subst hc
      exact ⟨rc, hpo, hps⟩

/-- C3 counterexample: the `part_000` selection loop adopts a candidate
whose health body is the empty JSON object — valid JSON of the wrong
shape is not treated as a probe failure in this variant. -/
theorem part000_adopts_shapeless_json :
    Part000.getActiveInstance emptyObjEnv 0 ⟨none, 0⟩ =
      (.ok "https://yewtu.be", ⟨some "https://yewtu.be", 0⟩,
        [.probe "https://yewtu.be"]) ∧
    emptyObjEnv.parse emptyObjBody = some (Json.obj []) :=
  ⟨rfl, rfl⟩

/-- C3 witness: concrete instantiation of the probe contract at a 200
response whose body parses to the empty array. -/
theorem server_probe_health_contract_witness :
    Server.probeSucceeds (Except.ok (Json.arr [])) = true ↔
      (200 ≤ 200 ∧ 200 < 300 ∧
        ∃ elems, emptyArrEnv.parse "[]" = some (Json.arr elems) ∧ elems ≠ []) :=
  (server_probe_health_contract emptyArrEnv 0 "https://c.example" 200 "[]"
    (Except.ok (Json.arr [])) rfl rfl).1

/-- C4 (amended): every `getActiveInstance` call either leaves the
selector state unchanged or stores a candidate whose probe succeeded,
stamped with the time captured at the start of the call; in particular a
non-empty cached url can only have been stored by a successful probe.
Expiry does not clear the cache by itself: exhausting all candidates on
an expired cache leaves the stale entry in place (see the
counterexample). -/
theorem server_cache_update_only_by_probe
    (env : NetEnv) (fuel : Nat) (now : Int) (s : SelectorState)
    (out : Except String String × SelectorState × List NetEvent)
    (h : Server.getActiveInstance env fuel now s = some out) :
    out.2.1 = s ∨
    ∃ inst r, out.1 = .ok inst ∧ out.2.1 = ⟨some inst, now⟩ ∧
      Server.probeOutcome env fuel inst = some r ∧
      Server.probeSucceeds r = true := by
  rcases getActive_cases h with ⟨inst, hA, hne, httl, hout⟩ | ⟨insts, evs, hl, hsel, hevs⟩
  · left
    rw [hout]
  · rcases selectLoop_sound hsel with ⟨h1, h2⟩ | ⟨i, r, hmem, hpo, hps, h1, h2⟩
    · left
      dsimp only at h2
      exact h2
    · right
      dsimp only at h1 h2
      exact ⟨i, r, h1, h2, hpo, hps⟩

/-- C4 counterexample: with an expired cache and every candidate
failing, `getActiveInstance` throws but leaves the stale non-empty url
and its old timestamp in place, so after the call the cached url was
last validated more than one TTL before the call time. -/
theorem server_stale_url_survives_failed_sweep :
    Server.getActiveInstance allFailEnv 1 (Server.INSTANCE_TTL + 1)
        ⟨some "https://stale.example", 0⟩ =
      some (.error Server.allUnavailableMsg, ⟨some "https://stale.example", 0⟩,
        [.listFetch, .probe "https://yewtu.be", .probe "https://invidious.nerdvpn.de",
         .probe "https://inv.nadeko.net"]) ∧
    (⟨some "https://stale.example", 0⟩ : SelectorState).activeInstance ≠ none ∧
    ¬ (Server.INSTANCE_TTL + 1 - (0 : Int) < Server.INSTANCE_TTL) :=
  ⟨rfl, by simp, by decide⟩

/-- C4 witness: concrete call in which the state change is exactly a
probe-validated adoption. -/
theorem server_cache_update_only_by_probe_witness :
    ((Except.ok "https://yewtu.be", (⟨some "https://yewtu.be", 0⟩ : SelectorState),
        [NetEvent.listFetch, NetEvent.probe "https://yewtu.be"]) :
      Except String String × SelectorState × List NetEvent).2.1 = ⟨none, 0⟩ ∨
    ∃ inst r,
      ((Except.ok "https://yewtu.be", (⟨some "https://yewtu.be", 0⟩ : SelectorState),
          [NetEvent.listFetch, NetEvent.probe "https://yewtu.be"]) :
        Except String String × SelectorState × List NetEvent).1 = .ok inst ∧
      ((Except.ok "https://yewtu.be", (⟨some "https://yewtu.be", 0⟩ : SelectorState),
          [NetEvent.listFetch, NetEvent.probe "https://yewtu.be"]) :
        Except String String × SelectorState × List NetEvent).2.1 = ⟨some inst, 0⟩ ∧
      Server.probeOutcome okFirstEnv 1 inst = some r ∧
      Server.probeSucceeds r = true :=
  server_cache_update_only_by_probe okFirstEnv 1 0 ⟨none, 0⟩
    (.ok "https://yewtu.be", ⟨some "https://yewtu.be", 0⟩,
      [.listFetch, .probe "https://yewtu.be"]) rfl

/-- C5: after a `getActiveInstance` success that left the cache stamped
at time T, any call at T + ε with 0 ≤ ε < INSTANCE_TTL — under any
network environment — returns the same candidate, leaves the state
untouched and records no network event (no candidate-list fetch, no
probe). -/
theorem server_cache_reuse_within_ttl
    (env env' : NetEnv) (fuel fuel' : Nat) (T ε : Int) (s₀ s₁ : SelectorState)
    (c : String) (evs : List NetEvent)
    (h : Server.getActiveInstance env fuel T s₀ = some (.ok c, s₁, evs))
    (ht : s₁.instanceCheckTime = T)
    (hε0 : 0 ≤ ε) (hε : ε < Server.INSTANCE_TTL) :
    Server.getActiveInstance env' fuel' (T + ε) s₁ = some (.ok c, s₁, []) := by
  obtain ⟨hA, hC⟩ := getActive_ok_active h
  simp only [Server.getActiveInstance, hA]
  rw [if_pos ⟨hC, by rw [ht]; omega⟩]

/-- C5 witness: a fresh selection at time 0 followed by a call at time 1
that reuses the cache without any network event. -/
theorem server_cache_reuse_within_ttl_witness :
    Server.getActiveInstance okFirstEnv 1 (0 + 1) ⟨some "https://yewtu.be", 0⟩ =
      some (.ok "https://yewtu.be", ⟨some "https://yewtu.be", 0⟩, []) :=
  server_cache_reuse_within_ttl okFirstEnv okFirstEnv 1 1 0 1 ⟨none, 0⟩
    ⟨some "https://yewtu.be", 0⟩ "https://yewtu.be"
    [.listFetch, .probe "https://yewtu.be"] rfl rfl (by decide) (by decide)

/-- C6: with a candidate cached at time T, a completed call at
T + INSTANCE_TTL + ε (ε > 0) runs the probing loop — the recorded
events start with the candidate-list fetch followed by a probe — even
when the cached candidate would still pass its probe. -/
theorem server_ttl_expiry_reprobes
    (env : NetEnv) (fuel : Nat) (T ε : Int) (c : String) (s : SelectorState)
    (out : Except String String × SelectorState × List NetEvent)
    (hA : s.activeInstance = some c) (ht : s.instanceCheckTime = T) (hε : 0 < ε)
    (hpass : ∃ r, Server.probeOutcome env fuel c = some r ∧
      Server.probeSucceeds r = true)
    (hcall : Server.getActiveInstance env fuel (T + Server.INSTANCE_TTL + ε) s =
      some out) :
    ∃ i tail, out.2.2 = NetEvent.listFetch :: NetEvent.probe i :: tail := by
  rcases getActive_cases hcall with ⟨inst, hA', hne, httl, hout⟩ | ⟨insts, evs, hl, hsel, hevs⟩
  · rw [ht] at httl
    exact absurd httl (by omega)
  · have hnil := fetchInstanceList_ne_nil hl
    obtain ⟨i, rest, hsplit⟩ : ∃ i rest, insts = i :: rest := by
      cases insts with
      | nil => exact absurd rfl hnil
      | cons i rest => exact ⟨i, rest, rfl⟩
    subst hsplit
    obtain ⟨tail, htail⟩ := selectLoop_cons_events hsel
    dsimp only at htail
    exact ⟨i, tail, by rw [hevs, htail]⟩

/-- C6 witness: a cache stamped at time 0, queried at INSTANCE_TTL + 1
under a network where the cached candidate would still pass; the call's
events are the list fetch followed by a probe. -/
theorem server_ttl_expiry_reprobes_witness :
    ∃ i tail, ([NetEvent.listFetch, NetEvent.probe "https://yewtu.be"] : List NetEvent) =
      NetEvent.listFetch :: NetEvent.probe i :: tail :=
  server_ttl_expiry_reprobes okFirstEnv 1 0 1 "https://yewtu.be"
    ⟨some "https://yewtu.be", 0⟩
    (.ok "https://yewtu.be", ⟨some "https://yewtu.be", 0 + Server.INSTANCE_TTL + 1⟩,
      [.listFetch, .probe "https://yewtu.be"])
    rfl rfl (by decide) ⟨.ok (.arr [.num 1]), rfl, rfl⟩ rfl

/-- C7: on an empty cache, with candidates A :: B :: rest where the
probe of A fails and the probe of B succeeds, `getActiveInstance`
probes A then B, adopts and returns B, and probes nothing after B. -/
theorem server_failover_ordering
    (env : NetEnv) (fuel : Nat) (now : Int) (s : SelectorState)
    (A B : String) (rest : List String) (rA rB : Except String Json)
    (hs : s.activeInstance = none)
    (hl : Server.fetchInstanceList env fuel = some (A :: B :: rest))
    (hA : Server.probeOutcome env fuel A = some rA)
    (hAf : Server.probeSucceeds rA = false)
    (hB : Server.probeOutcome env fuel B = some rB)
    (hBs : Server.probeSucceeds rB = true) :
    Server.getActiveInstance env fuel now s =
      some (.ok B, ⟨some B, now⟩, [.listFetch, .probe A, .probe B]) := by
  simp only [Server.getActiveInstance, hs, Server.runSelection, hl,
    Server.selectLoop, hA, hAf, hB, hBs]
  rfl

/-- C7 witness: fallback candidates where the first fails and the second
succeeds; the second is adopted and the third is never probed. -/
theorem server_failover_ordering_witness :
    Server.getActiveInstance failoverEnv 1 5 ⟨none, 99⟩ =
      some (.ok "https://invidious.nerdvpn.de",
        ⟨some "https://invidious.nerdvpn.de", 5⟩,
        [.listFetch, .probe "https://yewtu.be",
         .probe "https://invidious.nerdvpn.de"]) :=
  server_failover_ordering failoverEnv 1 5 ⟨none, 99⟩ "https://yewtu.be"
    "https://invidious.nerdvpn.de" ["https://inv.nadeko.net"]
    (.error "ECONNREFUSED") (.ok (.arr [.num 1])) rfl rfl rfl rfl rfl rfl

/-- C8: on an empty cache, when every candidate's probe fails,
`getActiveInstance` fails with the all-unavailable error and the
selector state is returned unchanged — no candidate and no new
timestamp is stored. -/
theorem server_total_failure_keeps_cache
    (env : NetEnv) (fuel : Nat) (now : Int) (s : SelectorState)
    (insts : List String)
    (hs : s.activeInstance = none)
    (hl : Server.fetchInstanceList env fuel = some insts)
    (hfail : ∀ inst ∈ insts, ∃ r, Server.probeOutcome env fuel inst = some r ∧
      Server.probeSucceeds r = false) :
    Server.getActiveInstance env fuel now s =
      some (.error Server.allUnavailableMsg, s,
        .listFetch :: insts.map NetEvent.probe) := by
  have hloop := @selectLoop_all_fail env fuel now insts s hfail
  simp only [Server.getActiveInstance, hs, Server.runSelection, hl, hloop]

/-- C8 witness: every fallback candidate refused; the call fails with
the all-unavailable error and the empty state is unchanged. -/
theorem server_total_failure_keeps_cache_witness :
    Server.getActiveInstance allFailEnv 1 42 ⟨none, 7⟩ =
      some (.error Server.allUnavailableMsg, ⟨none, 7⟩,
        .listFetch :: Server.FALLBACK_INSTANCES.map NetEvent.probe) := by
  refine server_total_failure_keeps_cache allFailEnv 1 42 ⟨none, 7⟩
    Server.FALLBACK_INSTANCES rfl rfl ?_
  intro inst hmem
  fin_cases hmem <;> exact ⟨.error "ECONNREFUSED", rfl, rfl⟩

/-- C9: whatever `fetchInstanceList` returns is non-empty, and on a
failed discovery fetch, an unparseable body, a throwing filter pipeline
or a pipeline that filters down to zero entries, it is exactly the
static fallback list. -/
theorem server_discovery_fallback_total
    (env : NetEnv) (fuel : Nat) (l : List String)
    (h : Server.fetchInstanceList env fuel = some l) :
    l ≠ [] ∧
    (∀ m, Server.fetchUrl env 8000 fuel Server.discoveryUrl = .err m →
      l = Server.FALLBACK_INSTANCES) ∧
    (∀ st text, Server.fetchUrl env 8000 fuel Server.discoveryUrl = .ok st text →
      env.parse text = none → l = Server.FALLBACK_INSTANCES) ∧
    (∀ st text j m, Server.fetchUrl env 8000 fuel Server.discoveryUrl = .ok st text →
      env.parse text = some j → Server.instancesFromJson j = .error m →
      l = Server.FALLBACK_INSTANCES) ∧
    (∀ st text j, Server.fetchUrl env 8000 fuel Server.discoveryUrl = .ok st text →
      env.parse text = some j → Server.instancesFromJson j = .ok [] →
      l = Server.FALLBACK_INSTANCES) := by
  refine ⟨fetchInstanceList_ne_nil h, ?_, ?_, ?_, ?_⟩
  · intro m hm
    unfold Server.fetchInstanceList at h
    simp only [hm] at h
    injection h with h
    exact h.symm
  · intro st text hok hp
    unfold Server.fetchInstanceList at h
    simp only [hok, hp] at h
    injection h with h
    exact h.symm
  · intro st text j m hok hp hj
    unfold Server.fetchInstanceList at h
    simp only [hok, hp, hj] at h
    injection h with h
    exact h.symm
  · intro st text j hok hp hj
    unfold Server.fetchInstanceList at h
    simp only [hok, hp, hj, List.length_nil] at h
    injection h with h
    exact h.symm

/-- C9 witness: with a refused discovery fetch the returned candidate
list is the fallback list, which is non-empty. -/
theorem server_discovery_fallback_total_witness :
    Server.FALLBACK_INSTANCES ≠ [] ∧
    Server.fetchInstanceList okFirstEnv 1 = some Server.FALLBACK_INSTANCES :=
  ⟨(server_discovery_fallback_total okFirstEnv 1 Server.FALLBACK_INSTANCES rfl).1,
   rfl⟩

/-- C10: the failure path of the `/api/*` handler resets only
`activeInstance` to null, keeping the stored timestamp, and a
`getActiveInstance` call on a state with a null url is a cache miss
even when the call time is within the TTL of that timestamp — the
probing loop runs. -/
theorem server_invalidation_clears_only_url
    (env env' : NetEnv) (fuel fuel' : Nat) (now now' t : Int) (s s₁ : SelectorState)
    (url inst m : String) (evs : List NetEvent)
    (out' : Except String String × SelectorState × List NetEvent)
    (h1 : Server.getActiveInstance env fuel now s = some (.ok inst, s₁, evs))
    (h2 : Server.fetchUrl env 12000 fuel (inst ++ url) = .err m)
    (httl : now' - t < Server.INSTANCE_TTL)
    (hcall : Server.getActiveInstance env' fuel' now' ⟨none, t⟩ = some out') :
    Server.apiHandler env fuel now s url =
      some (.badGateway m, ⟨none, s₁.instanceCheckTime⟩) ∧
    ∃ evs', out'.2.2 = NetEvent.listFetch :: evs' := by
  constructor
  · simp only [Server.apiHandler, h1, h2]
  · rcases getActive_cases hcall with ⟨i, hAi, _, _, _⟩ | ⟨insts, evs', hl, hsel, hevs⟩
    · exact Option.noConfusion hAi
    · exact ⟨evs', hevs⟩

/-- C10 witness: failed proxied fetch clears only the url, and the
subsequent call at a time still within the TTL of the kept timestamp
runs the probing loop. -/
theorem server_invalidation_clears_only_url_witness :
    Server.apiHandler okFirstEnv 1 0 ⟨none, 0⟩ "/api/v1/videos/abc" =
      some (.badGateway "ECONNREFUSED", ⟨none, 0⟩) ∧
    ∃ evs', ([NetEvent.listFetch, NetEvent.probe "https://yewtu.be"] : List NetEvent) =
      NetEvent.listFetch :: evs' :=
  server_invalidation_clears_only_url okFirstEnv okFirstEnv 1 1 0 5 0
    ⟨none, 0⟩ ⟨some "https://yewtu.be", 0⟩ "/api/v1/videos/abc" "https://yewtu.be"
    "ECONNREFUSED" [.listFetch, .probe "https://yewtu.be"]
    (.ok "https://yewtu.be", ⟨some "https://yewtu.be", 5⟩,
      [.listFetch, .probe "https://yewtu.be"])
    rfl rfl (by decide) rfl
